import Mathlib

/-!
Verification of the GodotGlados frontend core (`frontend/src/app.tsx`):
the context-serialization pipeline (`copyResultsToClipboard`), the
result formatter (`formatContent`), and the query / collections
orchestration (`handleQuery`, `fetchCollections`, the submit guard).
Each source function is embedded as an executable Lean definition that
mirrors its control flow; state updates are modelled as explicit state
transitions on an `AppState` record, with the asynchronous collaborator
response supplied as an explicit outcome value.
-/

namespace Glados

/-- A single retrieved chunk (`CollectionResult` in app.tsx): source path,
chunk text, and similarity score. -/
structure CollectionResult where
  source : String
  text : String
  score : Rat
deriving DecidableEq

/-- Per-collection results (`Context` in app.tsx). -/
structure Context where
  collection : String
  results : List CollectionResult
deriving DecidableEq

/-- The query response bundle (`QueryResponse` in app.tsx).
`project_rules` is optional: in the source it is an absent-or-string field
and the builder gates on `data.project_rules != null`, which is true for
the empty string as well. -/
structure QueryResponse where
  query : String
  project_rules : Option String
  contexts : List Context
deriving DecidableEq

/-- The clipboard text builder inside `copyResultsToClipboard`
(app.tsx lines 163-173), mirrored as the same left-to-right `+=`
accumulation over contexts and results. -/
def serialize (data : QueryResponse) : String :=
  data.contexts.foldl
    (fun acc context =>
      context.results.foldl
        (fun acc2 result =>
          acc2 ++ "Source: " ++ result.source ++ "\n" ++ result.text ++ "\n\n")
        (acc ++ "From " ++ context.collection ++ ":\n"))
    (match data.project_rules with
     | some rules => "Prompt: " ++ data.query ++ "\n\n" ++ rules
     | none => "Prompt: " ++ data.query ++ "\n\n")

/-- Concatenation of a list of strings, used to state the spec-shaped
form of the serialization. -/
def joinAll : List String → String
  | [] => ""
  | s :: rest => s ++ joinAll rest

/-- Spec-shaped block for one result: `Source: <source>\n<text>\n\n`. -/
def resultBlock (r : CollectionResult) : String :=
  "Source: " ++ r.source ++ "\n" ++ r.text ++ "\n\n"

/-- Spec-shaped block for one collection entry:
`From <collection>:\n` followed by its result blocks. -/
def contextBlock (c : Context) : String :=
  "From " ++ c.collection ++ ":\n" ++ joinAll (c.results.map resultBlock)

/-- Spec-shaped rules segment: the raw rules text when present (even when
empty), nothing when absent. -/
def rulesPart : Option String → String
  | some r => r
  | none => ""

theorem foldl_append {α : Type} (f : α → String) (l : List α) (acc : String) :
    l.foldl (fun a x => a ++ f x) acc = acc ++ joinAll (l.map f) := by
  induction l generalizing acc with
  | nil => simp [joinAll]
  | cons x xs ih => simp [List.foldl_cons, ih, joinAll, String.append_assoc]

theorem resultFold_eq (rs : List CollectionResult) (acc : String) :
    rs.foldl
      (fun acc2 result =>
        acc2 ++ "Source: " ++ result.source ++ "\n" ++ result.text ++ "\n\n")
      acc = acc ++ joinAll (rs.map resultBlock) := by
  have h : (fun (acc2 : String) (result : CollectionResult) =>
        acc2 ++ "Source: " ++ result.source ++ "\n" ++ result.text ++ "\n\n")
      = fun (acc2 : String) result => acc2 ++ resultBlock result := by
    funext a r
    simp [resultBlock, String.append_assoc]
  rw [h, foldl_append]

theorem contextFold_eq (cs : List Context) (acc : String) :
    cs.foldl
      (fun acc context =>
        context.results.foldl
          (fun acc2 result =>
            acc2 ++ "Source: " ++ result.source ++ "\n" ++ result.text ++ "\n\n")
          (acc ++ "From " ++ context.collection ++ ":\n"))
      acc = acc ++ joinAll (cs.map contextBlock) := by
  have h : (fun (acc : String) (context : Context) =>
        context.results.foldl
          (fun acc2 result =>
            acc2 ++ "Source: " ++ result.source ++ "\n" ++ result.text ++ "\n\n")
          (acc ++ "From " ++ context.collection ++ ":\n"))
      = fun (acc : String) context => acc ++ contextBlock context := by
    funext a c
    rw [resultFold_eq]
    simp [contextBlock, String.append_assoc]
  rw [h, foldl_append]

/-- C1: the clipboard text is exactly the prompt header, then the raw
rules text exactly when `project_rules` is present, then the per-collection
blocks in bundle order; checked also on the concrete example bundle. -/
theorem C1_serialize_concat (data : QueryResponse) :
    serialize data =
      "Prompt: " ++ data.query ++ "\n\n" ++ rulesPart data.project_rules ++
        joinAll (data.contexts.map contextBlock) ∧
    serialize
        { query := "how?", project_rules := none,
          contexts := [{ collection := "docs",
                         results := [{ source := "a.md", text := "hi",
                                       score := (9 : Rat) / 10 }] }] } =
      "Prompt: how?\n\nFrom docs:\nSource: a.md\nhi\n\n" := by
  constructor
  · cases h : data.project_rules with
    | none =>
        simp only [serialize, h]
        rw [contextFold_eq]
        simp [rulesPart, String.append_assoc]
    | some rules =>
        simp only [serialize, h]
        rw [contextFold_eq]
        simp [rulesPart, String.append_assoc]
  · rfl

/-- Characters of the current line: what the greedy `(.*)` capture of a
JavaScript regex matches (everything up to the next newline, exclusive). -/
def takeLine : List Char → List Char
  | [] => []
  | c :: cs => if c = '\n' then [] else c :: takeLine cs

/-- Remainder after the current line (the next newline onward). -/
def dropLine : List Char → List Char
  | [] => []
  | c :: cs => if c = '\n' then c :: cs else dropLine cs

theorem dropLine_length_le (l : List Char) : (dropLine l).length ≤ l.length := by
  induction l with
  | nil => simp [dropLine]
  | cons c cs ih =>
      simp only [dropLine]
      split
      · exact le_rfl
      · exact le_trans ih (Nat.le_succ _)

/-- Global rewrite of app.tsx's first substitution: every occurrence of
a hash and a space is replaced together with the rest of its line by an
h5 element (the pattern is not anchored to line starts). -/
def applyH5 : List Char → List Char
  | [] => []
  | [c] => [c]
  | c :: c2 :: rest =>
      if c = '#' ∧ c2 = ' ' then
        "<h5>".toList ++ takeLine rest ++ "</h5>".toList ++ applyH5 (dropLine rest)
      else
        c :: applyH5 (c2 :: rest)
termination_by l => l.length
decreasing_by
  · have := dropLine_length_le rest
    simp only [List.length_cons]
    omega
  · simp only [List.length_cons]
    omega

/-- Global rewrite of the second substitution: two hashes and a space,
with the rest of the line, become an h6 element. -/
def applyH6 : List Char → List Char
  | [] => []
  | [c] => [c]
  | [c, c2] => [c, c2]
  | c :: c2 :: c3 :: rest =>
      if c = '#' ∧ c2 = '#' ∧ c3 = ' ' then
        "<h6>".toList ++ takeLine rest ++ "</h6>".toList ++ applyH6 (dropLine rest)
      else
        c :: applyH6 (c2 :: c3 :: rest)
termination_by l => l.length
decreasing_by
  · have := dropLine_length_le rest
    simp only [List.length_cons]
    omega
  · simp only [List.length_cons]
    omega

/-- Lazy search for the closing double star of the bold pattern: returns
the captured characters and the remainder, failing at a newline or at the
end of input (a JavaScript dot never matches a newline). -/
def findBoldClose : List Char → Option (List Char × List Char)
  | [] => none
  | [_] => none
  | c :: c2 :: rest =>
      if c = '*' ∧ c2 = '*' then some ([], rest)
      else if c = '\n' then none
      else
        match findBoldClose (c2 :: rest) with
        | some (cap, r) => some (c :: cap, r)
        | none => none

theorem findBoldClose_rest_le :
    ∀ (l cap r : List Char), findBoldClose l = some (cap, r) → r.length ≤ l.length := by
  intro l
  induction l with
  | nil => intro cap r h; simp [findBoldClose] at h
  | cons c cs ih =>
      intro cap r h
      cases cs with
      | nil => simp [findBoldClose] at h
      | cons c2 rest =>
          simp only [findBoldClose] at h
          split at h
          · rw [Option.some.injEq, Prod.mk.injEq] at h
            obtain ⟨h1, h2⟩ := h
            subst h2
            simp only [List.length_cons]
            omega
          · split at h
            · simp at h
            · rcases hm : findBoldClose (c2 :: rest) with _ | ⟨cap2, r2⟩
              · rw [hm] at h; simp at h
              · rw [hm] at h
                rw [Option.some.injEq, Prod.mk.injEq] at h
                obtain ⟨h1, h2⟩ := h
                subst h2
                have := ih cap2 r2 hm
                simp only [List.length_cons] at this ⊢
                omega

/-- Global rewrite of the bold substitution: a lazily-closed double-star
span becomes a strong element; an unclosed opener is left verbatim and
scanning resumes one character later, as a regex engine does. -/
def applyBold : List Char → List Char
  | [] => []
  | [c] => [c]
  | c :: c2 :: rest =>
      if c = '*' ∧ c2 = '*' then
        match h : findBoldClose rest with
        | some (cap, r) =>
            "<strong>".toList ++ cap ++ "</strong>".toList ++ applyBold r
        | none => c :: applyBold (c2 :: rest)
      else
        c :: applyBold (c2 :: rest)
termination_by l => l.length
decreasing_by
  · have := findBoldClose_rest_le rest cap r h
    simp only [List.length_cons]
    omega
  · simp only [List.length_cons]
    omega
  · simp only [List.length_cons]
    omega

/-- Global rewrite of the list-item substitution: a newline, a dash and a
space, with the rest of the line, become a break element and a bullet. -/
def applyDash : List Char → List Char
  | [] => []
  | [c] => [c]
  | [c, c2] => [c, c2]
  | c :: c2 :: c3 :: rest =>
      if c = '\n' ∧ c2 = '-' ∧ c3 = ' ' then
        "<br>• ".toList ++ takeLine rest ++ applyDash (dropLine rest)
      else
        c :: applyDash (c2 :: c3 :: rest)
termination_by l => l.length
decreasing_by
  · have := dropLine_length_le rest
    simp only [List.length_cons]
    omega
  · simp only [List.length_cons]
    omega

/-- Global rewrite of the final substitution: each remaining newline
becomes a break element. -/
def applyNl : List Char → List Char
  | [] => []
  | c :: cs => (if c = '\n' then "<br>".toList else [c]) ++ applyNl cs

/-- Does `p` start the list `s`? -/
def startsWithL : List Char → List Char → Bool
  | [], _ => true
  | _ :: _, [] => false
  | p :: ps, c :: cs => p == c && startsWithL ps cs

/-- Does `pat` occur as a contiguous run in `s`? Mirrors the JavaScript
`String.prototype.includes` scan. -/
def hasSub (pat : List Char) : List Char → Bool
  | [] => pat.isEmpty
  | c :: cs => startsWithL pat (c :: cs) || hasSub pat cs

/-- `text.includes(pat)` of app.tsx. -/
def jsIncludes (s pat : String) : Bool := hasSub pat.toList s.toList

/-- The output of `formatContent` (app.tsx lines 242-260): a verbatim
preformatted code block, or markup text after the five substitutions. -/
inductive FormattedBlock where
  | Code (text : String)
  | Markup (html : String)
deriving DecidableEq

/-- The markup branch of `formatContent`: the five substitutions in the
source's order (h5 pass, then h6 pass, then bold, then list items, then
remaining newlines). -/
def formatMarkup (text : String) : String :=
  String.mk (applyNl (applyDash (applyBold (applyH6 (applyH5 text.toList)))))

/-- `formatContent` of app.tsx: classify as code when the text includes
one of four keyword fragments, otherwise apply the markup rewrites. -/
def formatContent (text : String) : FormattedBlock :=
  if jsIncludes text "func " || jsIncludes text "var " ||
      jsIncludes text "import " || jsIncludes text "class " then
    FormattedBlock.Code text
  else
    FormattedBlock.Markup (formatMarkup text)

/-- `pat` occurs contiguously inside `s` (the specification-level
statement of substring containment). -/
def OccursIn (pat s : List Char) : Prop := ∃ l r, s = l ++ pat ++ r

theorem startsWithL_iff (p : List Char) :
    ∀ s, startsWithL p s = true ↔ ∃ r, s = p ++ r := by
  induction p with
  | nil => intro s; simp [startsWithL]
  | cons a ps ih =>
      intro s
      cases s with
      | nil => simp [startsWithL]
      | cons c cs =>
          simp only [startsWithL, Bool.and_eq_true, beq_iff_eq, ih,
            List.cons_append, List.cons.injEq]
          constructor
          · rintro ⟨rfl, r, rfl⟩
            exact ⟨r, rfl, rfl⟩
          · rintro ⟨r, rfl, rfl⟩
            exact ⟨rfl, r, rfl⟩

theorem hasSub_iff (pat : List Char) :
    ∀ s, hasSub pat s = true ↔ OccursIn pat s := by
  intro s
  induction s with
  | nil =>
      simp only [hasSub, List.isEmpty_iff, OccursIn]
      constructor
      · rintro rfl
        exact ⟨[], [], rfl⟩
      · rintro ⟨l, r, h⟩
        rcases List.append_eq_nil.mp h.symm with ⟨hlp, hr⟩
        rcases List.append_eq_nil.mp hlp with ⟨hl, hp⟩
        exact hp
  | cons c cs ih =>
      simp only [hasSub, Bool.or_eq_true, ih, startsWithL_iff, OccursIn]
      constructor
      · rintro (⟨r, h⟩ | ⟨l, r, h⟩)
        · exact ⟨[], r, by simpa using h⟩
        · exact ⟨c :: l, r, by simp [h]⟩
      · rintro ⟨l, r, h⟩
        cases l with
        | nil =>
            left
            exact ⟨r, by simpa using h⟩
        | cons x xs =>
            right
            simp only [List.cons_append, List.cons.injEq] at h
            exact ⟨xs, r, h.2⟩

theorem code_guard_iff (text : String) :
    (jsIncludes text "func " || jsIncludes text "var " ||
      jsIncludes text "import " || jsIncludes text "class ") = true ↔
    (OccursIn "func ".toList text.toList ∨ OccursIn "var ".toList text.toList ∨
      OccursIn "import ".toList text.toList ∨
      OccursIn "class ".toList text.toList) := by
  simp only [Bool.or_eq_true, jsIncludes, hasSub_iff, or_assoc]

/-- C2: `formatContent` classifies text as a code block exactly when one
of the literal fragments `func `, `var `, `import `, `class ` occurs in it,
and the code block carries the input verbatim; checked on the concrete
GDScript example. -/
theorem C2_code_classification (text : String) :
    (formatContent text = FormattedBlock.Code text ↔
      (OccursIn "func ".toList text.toList ∨ OccursIn "var ".toList text.toList ∨
        OccursIn "import ".toList text.toList ∨
        OccursIn "class ".toList text.toList)) ∧
    formatContent "func _ready():\n\tpass" =
      FormattedBlock.Code "func _ready():\n\tpass" := by
  constructor
  · rw [← code_guard_iff text]
    unfold formatContent
    split
    · simp_all
    · simp_all
  · decide

theorem takeLine_eq_self (l : List Char) :
    (∀ x ∈ l, x ≠ '\n') → takeLine l = l := by
  induction l with
  | nil => intro h; simp [takeLine]
  | cons c cs ih =>
      intro h
      simp only [takeLine]
      rw [if_neg (h c (List.mem_cons_self _ _)),
        ih (fun x hx => h x (List.mem_cons_of_mem c hx))]

theorem dropLine_eq_nil (l : List Char) :
    (∀ x ∈ l, x ≠ '\n') → dropLine l = [] := by
  induction l with
  | nil => intro h; simp [dropLine]
  | cons c cs ih =>
      intro h
      simp only [dropLine]
      rw [if_neg (h c (List.mem_cons_self _ _))]
      exact ih (fun x hx => h x (List.mem_cons_of_mem c hx))

theorem applyH5_eq_self (l : List Char) :
    (∀ x ∈ l, x ≠ '#') → applyH5 l = l := by
  induction l with
  | nil => intro h; simp [applyH5]
  | cons c cs ih =>
      intro h
      cases cs with
      | nil => simp [applyH5]
      | cons c2 rest =>
          have hc : ¬(c = '#' ∧ c2 = ' ') := by
            rintro ⟨rfl, h2⟩
            exact h '#' (List.mem_cons_self _ _) rfl
          simp only [applyH5]
          rw [if_neg hc, ih (fun x hx => h x (List.mem_cons_of_mem c hx))]

theorem applyH6_eq_self (l : List Char) :
    (∀ x ∈ l, x ≠ '#') → applyH6 l = l := by
  induction l with
  | nil => intro h; simp [applyH6]
  | cons c cs ih =>
      intro h
      cases cs with
      | nil => simp [applyH6]
      | cons c2 rest2 =>
          cases rest2 with
          | nil => simp [applyH6]
          | cons c3 rest =>
              have hc : ¬(c = '#' ∧ c2 = '#' ∧ c3 = ' ') := by
                rintro ⟨rfl, h2⟩
                exact h '#' (List.mem_cons_self _ _) rfl
              simp only [applyH6]
              rw [if_neg hc, ih (fun x hx => h x (List.mem_cons_of_mem c hx))]

theorem applyBold_eq_self (l : List Char) :
    (∀ x ∈ l, x ≠ '*') → applyBold l = l := by
  induction l with
  | nil => intro h; simp [applyBold]
  | cons c cs ih =>
      intro h
      cases cs with
      | nil => simp [applyBold]
      | cons c2 rest =>
          have hc : ¬(c = '*' ∧ c2 = '*') := by
            rintro ⟨rfl, h2⟩
            exact h '*' (List.mem_cons_self _ _) rfl
          simp only [applyBold]
          rw [if_neg hc, ih (fun x hx => h x (List.mem_cons_of_mem c hx))]

theorem applyDash_eq_self (l : List Char) :
    (∀ x ∈ l, x ≠ '\n') → applyDash l = l := by
  induction l with
  | nil => intro h; simp [applyDash]
  | cons c cs ih =>
      intro h
      cases cs with
      | nil => simp [applyDash]
      | cons c2 rest2 =>
          cases rest2 with
          | nil => simp [applyDash]
          | cons c3 rest =>
              have hc : ¬(c = '\n' ∧ c2 = '-' ∧ c3 = ' ') := by
                rintro ⟨rfl, h2⟩
                exact h '\n' (List.mem_cons_self _ _) rfl
              simp only [applyDash]
              rw [if_neg hc, ih (fun x hx => h x (List.mem_cons_of_mem c hx))]

theorem applyNl_eq_self (l : List Char) :
    (∀ x ∈ l, x ≠ '\n') → applyNl l = l := by
  induction l with
  | nil => intro h; simp [applyNl]
  | cons c cs ih =>
      intro h
      simp only [applyNl]
      rw [if_neg (h c (List.mem_cons_self _ _)),
        ih (fun x hx => h x (List.mem_cons_of_mem c hx))]
      rfl

theorem mem_three {A s B : List Char} {x : Char} (hx : x ∈ A ++ s ++ B) :
    x ∈ A ∨ x ∈ s ∨ x ∈ B := by
  rcases List.mem_append.mp hx with h1 | h1
  · rcases List.mem_append.mp h1 with h2 | h2
    · exact Or.inl h2
    · exact Or.inr (Or.inl h2)
  · exact Or.inr (Or.inr h1)

theorem markup_h5_line (s : List Char)
    (h : ∀ x ∈ s, x ≠ '\n' ∧ x ≠ '#' ∧ x ≠ '*') :
    applyNl (applyDash (applyBold (applyH6 (applyH5 ('#' :: ' ' :: s))))) =
      ['<', 'h', '5', '>'] ++ s ++ ['<', '/', 'h', '5', '>'] := by
  have h5 : applyH5 ('#' :: ' ' :: s) =
      ['<', 'h', '5', '>'] ++ s ++ ['<', '/', 'h', '5', '>'] := by
    simp only [applyH5]
    rw [if_pos (And.intro trivial trivial),
      takeLine_eq_self s (fun x hx => (h x hx).1),
      dropLine_eq_nil s (fun x hx => (h x hx).1)]
    simp [applyH5]
  have hmem : ∀ x ∈ ['<', 'h', '5', '>'] ++ s ++ ['<', '/', 'h', '5', '>'],
      x ≠ '\n' ∧ x ≠ '#' ∧ x ≠ '*' := by
    intro x hx
    rcases mem_three hx with hx | hx | hx
    · exact (by decide :
        ∀ y ∈ (['<', 'h', '5', '>'] : List Char),
          y ≠ '\n' ∧ y ≠ '#' ∧ y ≠ '*') x hx
    · exact h x hx
    · exact (by decide :
        ∀ y ∈ (['<', '/', 'h', '5', '>'] : List Char),
          y ≠ '\n' ∧ y ≠ '#' ∧ y ≠ '*') x hx
  rw [h5, applyH6_eq_self _ (fun x hx => (hmem x hx).2.1),
    applyBold_eq_self _ (fun x hx => (hmem x hx).2.2),
    applyDash_eq_self _ (fun x hx => (hmem x hx).1),
    applyNl_eq_self _ (fun x hx => (hmem x hx).1)]

/-- C3 counterexample: on the input `## X` the formatter emits
`#<h5>X</h5>` — the first substitution consumes the second hash and the
rest of the line, and no level-6 heading ever appears in the output. -/
theorem C3_counterexample :
    formatContent "## X" = FormattedBlock.Markup "#<h5>X</h5>" ∧
    ¬ OccursIn "<h6>".toList (formatMarkup "## X").toList := by
  have hfm : formatMarkup "## X" = "#<h5>X</h5>" := by
    simp [formatMarkup, applyH5, applyH6, applyBold, applyDash, applyNl,
      takeLine, dropLine, findBoldClose]
  constructor
  · rw [formatContent, hfm]
    decide
  · intro hocc
    rw [hfm] at hocc
    have hs := (hasSub_iff "<h6>".toList "#<h5>X</h5>".toList).mpr hocc
    revert hs
    decide

/-- C3 amended: in the Markup branch the five substitutions apply in the
source's order, so a line `# <plain text>` becomes a level-5 heading, the
claim's example `# Title\n- item one` becomes a level-5 heading plus a
break and bullet, `**bold**` spans become strong spans and newlines become
breaks; but a line beginning `## X` does not become a level-6 heading: its
second hash is consumed by the one-hash rule, leaving `#<h5>X</h5>`. -/
theorem C3_amended_markup (s : String)
    (h : ∀ x ∈ s.data, x ≠ '\n' ∧ x ≠ '#' ∧ x ≠ '*') :
    formatMarkup ("# " ++ s) = "<h5>" ++ s ++ "</h5>" ∧
    formatContent "# Title\n- item one" =
      FormattedBlock.Markup "<h5>Title</h5><br>• item one" ∧
    formatContent "## X" = FormattedBlock.Markup "#<h5>X</h5>" ∧
    formatContent "**bold**\nplain" =
      FormattedBlock.Markup "<strong>bold</strong><br>plain" := by
  refine ⟨?_, ?_, ?_, ?_⟩
  · have hl : ("# " ++ s).toList = '#' :: ' ' :: s.data := by
      rw [show ("# " ++ s).toList = ("# " ++ s).data from rfl, String.data_append]
      rfl
    unfold formatMarkup
    rw [hl, markup_h5_line s.data h]
    apply String.ext
    rw [String.data_append, String.data_append]
  · simp [formatContent, jsIncludes, hasSub, startsWithL, formatMarkup,
      applyH5, applyH6, applyBold, applyDash, applyNl, takeLine, dropLine,
      findBoldClose]
  · simp [formatContent, jsIncludes, hasSub, startsWithL, formatMarkup,
      applyH5, applyH6, applyBold, applyDash, applyNl, takeLine, dropLine,
      findBoldClose]
  · simp [formatContent, jsIncludes, hasSub, startsWithL, formatMarkup,
      applyH5, applyH6, applyBold, applyDash, applyNl, takeLine, dropLine,
      findBoldClose]

theorem C3_amended_markup_witness :
    (∀ x ∈ ("Title" : String).data, x ≠ '\n' ∧ x ≠ '#' ∧ x ≠ '*') ∧
    (formatMarkup ("# " ++ "Title") = "<h5>" ++ "Title" ++ "</h5>" ∧
     formatContent "# Title\n- item one" =
       FormattedBlock.Markup "<h5>Title</h5><br>• item one" ∧
     formatContent "## X" = FormattedBlock.Markup "#<h5>X</h5>" ∧
     formatContent "**bold**\nplain" =
       FormattedBlock.Markup "<strong>bold</strong><br>plain") :=
  ⟨by decide, C3_amended_markup "Title" (by decide)⟩

/-- Whitespace for the purposes of JavaScript's `String.prototype.trim`
(restricted to the four ASCII whitespace characters that can occur in
this UI's text fields). -/
def isWs (c : Char) : Bool :=
  c == ' ' || c == '\t' || c == '\n' || c == '\r'

/-- `queryText.trim()` of app.tsx: strip leading and trailing
whitespace. -/
def jsTrim (s : String) : String :=
  String.mk (((s.data.dropWhile isWs).reverse.dropWhile isWs).reverse)

/-- An alert raised through `showAlert` (app.tsx line 57): Bootstrap
severity variant plus message. The source also sets a show flag, always
true when an alert is raised; raising is modelled as an `Option` value. -/
structure AlertState where
  variant : String
  message : String
deriving DecidableEq

/-- The mutable UI state touched by the orchestration callbacks. -/
structure AppState where
  collections : List String
  selectedCollections : List String
  queryText : String
  includeRules : Bool
  queryResults : Option QueryResponse
  loadingQuery : Bool
deriving DecidableEq

/-- `copyResultsToClipboard` (app.tsx 157-190): returns whether the
function reported success, paired with the clipboard text whose write it
attempted (none when it returned early on an empty bundle).
`writeThrows` models a synchronous throw from the clipboard API call,
which the function catches itself and reports false; an asynchronous
rejection of the write promise is only logged inside the function and
does not change its result. -/
def copyResultsToClipboard (writeThrows : Bool) (data : QueryResponse) :
    Bool × Option String :=
  if data.contexts.isEmpty then (false, none)
  else if writeThrows then (false, some (serialize data))
  else (true, some (serialize data))

/-- Outcome of the awaited `POST query` call: a transport or server error
carrying its human-readable detail, or a parsed response together with
whether the subsequent clipboard write throws. -/
inductive QueryOutcome where
  | failure (detail : String)
  | success (resp : QueryResponse) (writeThrows : Bool)
deriving DecidableEq

/-- What one run of the submit handler did: whether the collaborator call
was dispatched, the clipboard text whose write was attempted, the new UI
state, and the alert raised. -/
structure SubmitResult where
  dispatched : Bool
  clipboardText : Option String
  state : AppState
  alert : Option AlertState
deriving DecidableEq

/-- `handleQuery` (app.tsx 192-232): local validation of the trimmed
query text, then the dispatched call's outcome drives the state update,
the alert, and the clipboard attempt. -/
def handleQuery (s : AppState) (outcome : QueryOutcome) : SubmitResult :=
  if jsTrim s.queryText = "" then
    { dispatched := false, clipboardText := none, state := s,
      alert := some { variant := "warning", message := "Please enter a query" } }
  else
    match outcome with
    | QueryOutcome.failure detail =>
        { dispatched := true, clipboardText := none, state := s,
          alert := some { variant := "danger",
                          message := "Error querying: " ++ detail } }
    | QueryOutcome.success resp writeThrows =>
        if resp.contexts.isEmpty then
          { dispatched := true, clipboardText := none,
            state := { s with queryResults := some resp },
            alert := some { variant := "info",
                            message := "No relevant results found. Try a different query." } }
        else
          { dispatched := true,
            clipboardText := (copyResultsToClipboard writeThrows resp).2,
            state := { s with queryResults := some resp },
            alert := some (if (copyResultsToClipboard writeThrows resp).1 then
                { variant := "success", message := "Context copied to clipboard!" }
              else
                { variant := "success",
                  message := "Context retrieved successfully!" }) }

/-- The submit control guard (app.tsx line 444): the button is disabled
while a query is loading, when the trimmed text is empty, or when no
collection is selected. -/
def submitDisabled (s : AppState) : Bool :=
  s.loadingQuery || jsTrim s.queryText == "" || s.selectedCollections.length == 0

/-- One submit interaction: a disabled control does nothing at all;
otherwise the submit handler runs. -/
def submitQuery (s : AppState) (outcome : QueryOutcome) : SubmitResult :=
  if submitDisabled s then
    { dispatched := false, clipboardText := none, state := s, alert := none }
  else handleQuery s outcome

/-- Outcome of the awaited `GET collections` call. -/
inductive CollectionsOutcome where
  | failure
  | success (ok : Bool) (collections : List String)
deriving DecidableEq

/-- Result of one collections refresh: new state and raised alert. -/
structure FetchResult where
  state : AppState
  alert : Option AlertState
deriving DecidableEq

/-- `fetchCollections` (app.tsx 80-95): on success with a non-empty list
both collection states are replaced by the returned list; otherwise, and
on any error, the state is untouched and no alert is raised (the error
is only logged). -/
def fetchCollections (s : AppState) (outcome : CollectionsOutcome) :
    FetchResult :=
  match outcome with
  | CollectionsOutcome.failure => { state := s, alert := none }
  | CollectionsOutcome.success ok cols =>
      if ok ∧ 0 < cols.length then
        { state := { s with collections := cols, selectedCollections := cols },
          alert := none }
      else { state := s, alert := none }

/-- A state whose query text is valid but with no collection selected. -/
def noCollectionsState : AppState :=
  { collections := ["docs"], selectedCollections := [], queryText := "hello",
    includeRules := true, queryResults := none, loadingQuery := false }

/-- A state with a valid query text and a selected collection. -/
def validState : AppState :=
  { collections := ["docs"], selectedCollections := ["docs"],
    queryText := "how?", includeRules := true, queryResults := none,
    loadingQuery := false }

/-- A response with no contexts at all. -/
def emptyResp : QueryResponse :=
  { query := "how?", project_rules := none, contexts := [] }

/-- A response with one context holding one result. -/
def oneResp : QueryResponse :=
  { query := "how?", project_rules := none,
    contexts := [{ collection := "docs",
                   results := [{ source := "a.md", text := "hi",
                                 score := (9 : Rat) / 10 }] }] }

/-- C4 counterexample: with zero selected collections no ValidationError
is reported — the submit control is simply disabled and the interaction
raises no alert at all; moreover the handler itself, if it did run,
would dispatch the collaborator call unchecked. -/
theorem C4_counterexample :
    (submitQuery noCollectionsState (QueryOutcome.failure "boom")).alert = none ∧
    (handleQuery noCollectionsState (QueryOutcome.failure "boom")).dispatched
      = true := by
  constructor
  · decide
  · decide

/-- C4 amended: a submission with zero selected collections never
dispatches a collaborator call, because the submit control is disabled;
the interaction does nothing — no state change and, contrary to the
claim, no synchronous ValidationError alert either (the handler performs
no collections check of its own). -/
theorem C4_no_dispatch_without_collections (s : AppState)
    (outcome : QueryOutcome) (h : s.selectedCollections = []) :
    submitQuery s outcome =
      { dispatched := false, clipboardText := none, state := s,
        alert := none } := by
  unfold submitQuery submitDisabled
  rw [h]
  simp

theorem C4_no_dispatch_without_collections_witness :
    noCollectionsState.selectedCollections = [] ∧
    submitQuery noCollectionsState (QueryOutcome.failure "boom") =
      { dispatched := false, clipboardText := none,
        state := noCollectionsState, alert := none } :=
  ⟨rfl, C4_no_dispatch_without_collections noCollectionsState
    (QueryOutcome.failure "boom") rfl⟩

/-- C5: with empty or whitespace-only query text the handler raises the
warning alert synchronously, never dispatches the collaborator call, and
leaves the state untouched. -/
theorem C5_empty_text_validation (s : AppState) (outcome : QueryOutcome)
    (h : jsTrim s.queryText = "") :
    (handleQuery s outcome).dispatched = false ∧
    (handleQuery s outcome).alert =
      some { variant := "warning", message := "Please enter a query" } ∧
    (handleQuery s outcome).state = s := by
  unfold handleQuery
  rw [if_pos h]
  exact ⟨rfl, rfl, rfl⟩

/-- A state whose query text is whitespace only. -/
def whitespaceState : AppState :=
  { collections := ["docs"], selectedCollections := ["docs"],
    queryText := "   ", includeRules := true, queryResults := none,
    loadingQuery := false }

theorem C5_empty_text_validation_witness :
    jsTrim whitespaceState.queryText = "" ∧
    ((handleQuery whitespaceState (QueryOutcome.failure "x")).dispatched
        = false ∧
      (handleQuery whitespaceState (QueryOutcome.failure "x")).alert =
        some { variant := "warning", message := "Please enter a query" } ∧
      (handleQuery whitespaceState (QueryOutcome.failure "x")).state
        = whitespaceState) :=
  ⟨by decide, C5_empty_text_validation whitespaceState
    (QueryOutcome.failure "x") (by decide)⟩

/-- C6: a successful response with zero contexts raises the informational
(non-error) notice, and no clipboard export is attempted: the handler
passes no text to the clipboard, and the builder itself returns false
without building text on such a bundle. -/
theorem C6_empty_results_info (s : AppState) (resp : QueryResponse)
    (writeThrows : Bool) (ht : ¬ jsTrim s.queryText = "")
    (hc : resp.contexts = []) :
    (handleQuery s (QueryOutcome.success resp writeThrows)).alert =
      some { variant := "info",
             message := "No relevant results found. Try a different query." } ∧
    (handleQuery s (QueryOutcome.success resp writeThrows)).clipboardText
      = none ∧
    copyResultsToClipboard writeThrows resp = (false, none) := by
  unfold handleQuery copyResultsToClipboard
  rw [if_neg ht]
  simp [hc]

theorem C6_empty_results_info_witness :
    (¬ jsTrim validState.queryText = "") ∧ emptyResp.contexts = [] ∧
    ((handleQuery validState (QueryOutcome.success emptyResp false)).alert =
        some { variant := "info",
               message := "No relevant results found. Try a different query." } ∧
      (handleQuery validState
          (QueryOutcome.success emptyResp false)).clipboardText = none ∧
      copyResultsToClipboard false emptyResp = (false, none)) :=
  ⟨by decide, rfl,
    C6_empty_results_info validState emptyResp false (by decide) rfl⟩

/-- C7: on a successful response with at least one context the handler
builds the clipboard text and attempts the write, and whatever the
clipboard does — including a synchronous throw — the raised alert has
the success variant; a clipboard failure never surfaces as an error. -/
theorem C7_clipboard_never_error (s : AppState) (resp : QueryResponse)
    (writeThrows : Bool) (ht : ¬ jsTrim s.queryText = "")
    (hc : ¬ resp.contexts = []) :
    (handleQuery s (QueryOutcome.success resp writeThrows)).clipboardText =
      some (serialize resp) ∧
    ∃ a, (handleQuery s (QueryOutcome.success resp writeThrows)).alert
        = some a ∧ a.variant = "success" := by
  have hne : resp.contexts.isEmpty = false := by
    cases hcc : resp.contexts with
    | nil => exact absurd hcc hc
    | cons a l => rfl
  unfold handleQuery copyResultsToClipboard
  rw [if_neg ht]
  cases writeThrows with
  | false =>
      constructor
      · simp [hne]
      · refine ⟨{ variant := "success",
                  message := "Context copied to clipboard!" }, ?_, rfl⟩
        simp [hne]
  | true =>
      constructor
      · simp [hne]
      · refine ⟨{ variant := "success",
                  message := "Context retrieved successfully!" }, ?_, rfl⟩
        simp [hne]

theorem C7_clipboard_never_error_witness :
    (¬ jsTrim validState.queryText = "") ∧ (¬ oneResp.contexts = []) ∧
    ((handleQuery validState
          (QueryOutcome.success oneResp true)).clipboardText =
        some (serialize oneResp) ∧
      ∃ a, (handleQuery validState
          (QueryOutcome.success oneResp true)).alert = some a ∧
        a.variant = "success") :=
  ⟨by decide, by decide,
    C7_clipboard_never_error validState oneResp true (by decide) (by decide)⟩

/-- C8: a failed collections refresh leaves the state — the known and
the selected collections included — exactly as it was and raises no
user-visible alert. -/
theorem C8_refresh_failure_silent (s : AppState) :
    fetchCollections s CollectionsOutcome.failure =
      { state := s, alert := none } := rfl

/-- C9: a successful fetch returning a non-empty list replaces both the
known-collections and the selected-collections state with the entire
returned list, discarding any prior selection; a successful fetch
returning an empty list leaves both unchanged. -/
theorem C9_fetch_replaces_selection (s : AppState) (cols : List String)
    (h : cols ≠ []) :
    fetchCollections s (CollectionsOutcome.success true cols) =
      { state := { s with collections := cols, selectedCollections := cols },
        alert := none } ∧
    fetchCollections s (CollectionsOutcome.success true []) =
      { state := s, alert := none } := by
  constructor
  · have hred : fetchCollections s (CollectionsOutcome.success true cols) =
        if (true : Bool) = true ∧ 0 < cols.length then
          { state :=
              { s with collections := cols, selectedCollections := cols },
            alert := none }
        else { state := s, alert := none } := rfl
    rw [hred, if_pos (And.intro rfl (List.length_pos.mpr h))]
  · rfl

/-- The list returned by the collaborator in the C9 witness. -/
def twoCols : List String := ["docs", "godot_docs"]

theorem C9_fetch_replaces_selection_witness :
    twoCols ≠ [] ∧
    (fetchCollections validState (CollectionsOutcome.success true twoCols) =
      { state :=
          { validState with collections := twoCols,
                            selectedCollections := twoCols },
        alert := none } ∧
    fetchCollections validState (CollectionsOutcome.success true []) =
      { state := validState, alert := none }) :=
  ⟨by decide, C9_fetch_replaces_selection validState twoCols (by decide)⟩

/-- C10: a dispatch that fails with a transport or server error leaves
the whole state — the displayed results in particular — unchanged: only
a successful response ever replaces the displayed bundle. -/
theorem C10_error_preserves_results (s : AppState) (detail : String) :
    (handleQuery s (QueryOutcome.failure detail)).state = s := by
  unfold handleQuery
  split
  · rfl
  · rfl

end Glados
